import Mathlib

/-!
Verification development for the photo_organizer repository.

This file gives a shallow embedding, in Lean 4, of the destination-resolution
and duplicate-detection pipeline of `src/photo_organizer`:

* `fingerprint.py`  — content-hash fingerprint store (`calculate_hash`,
  `is_duplicate`, `record_fingerprint`, `cleanup_stale_fingerprints`,
  `save_fingerprints`);
* `file_mover.py`   — destination planning (`determine_destination`,
  `generate_filename`, `sanitize_filename`, `resolve_filename_conflict`)
  and the transfer executor (`copy_file`);
* `metadata_parser.py` — filename date extraction
  (`extract_from_filename`, `extract_time_from_filename`) and the EXIF
  sub-second merge step;
* `__main__.py`     — the organize pipeline (`process_one_file`,
  `run_organization`).

External effects (the filesystem, the system clock, `uuid4`, `hashlib`
digests, `stat` results, ExifTool output) are passed in as explicit
parameters, so every definition is an executable function and every
theorem is about the translated control flow of the Python source.
-/

namespace PhotoOrganizer

/-! ## Basic data: timestamps (Python `datetime`) -/

/-- A Python `datetime` value, restricted to the fields the organizer uses. -/
structure CDate where
  year : Nat
  month : Nat
  day : Nat
  hour : Nat
  minute : Nat
  second : Nat
  microsecond : Nat
deriving DecidableEq, Repr

/-! ## Fingerprint store (`fingerprint.py`)

The in-memory database `self.fingerprints : Dict[str, Dict[str, Any]]` is
modelled as an association list from hex digest to entry.  Filesystem
existence (`Path(p).exists()`) is an external oracle `ex : String → Bool`.
-/

/-- One fingerprint entry, as built by `record_fingerprint` (the `metadata`
sub-dictionary is irrelevant to every claim and is omitted). -/
structure FPEntry where
  path : Option String
  timestamp : Option Int
  size : Option Nat
  algorithm : String
deriving DecidableEq, Repr

/-- The fingerprint database: digest-keyed mapping, as an association list. -/
abbrev Store := List (String × FPEntry)

/-- Dictionary lookup `self.fingerprints[h]` / `h in self.fingerprints`. -/
def lookupFP : Store → String → Option FPEntry
  | [], _ => none
  | (k, e) :: rest, h => if k = h then some e else lookupFP rest h

/-- Dictionary upsert `self.fingerprints[h] = entry` (last write wins). -/
def insertFP : Store → String → FPEntry → Store
  | [], h, e => [(h, e)]
  | (k, e0) :: rest, h, e => if k = h then (k, e) :: rest else (k, e0) :: insertFP rest h e

/-- Dictionary deletion `del self.fingerprints[h]`. -/
def eraseFP : Store → String → Store
  | [], _ => []
  | (k, e0) :: rest, h => if k = h then rest else (k, e0) :: eraseFP rest h

/-- `FingerprintManager.calculate_hash` (fingerprint.py:50–80).

The file content is an external read result: `none` models an I/O error
raised while opening/reading the file (the `except` clause returns `None`);
`some bytes` is the full byte stream fed to the hasher in chunks.  The three
`hashlib` digest functions are external parameters. -/
def calculate_hash (md5 sha1 sha256 : List Nat → String) (alg : String)
    (content : Option (List Nat)) : Option String :=
  match content with
  | none => none
  | some bs =>
      some (if alg == "md5" then md5 bs else if alg == "sha1" then sha1 bs else sha256 bs)

/-- `FingerprintManager.is_duplicate` (fingerprint.py:82–109).

The pipeline passes `Optional[str]`; `if not file_hash` is Python
truthiness, so `none` and `some ""` are both treated as "no hash".
Returns the boolean answer together with the (possibly purged) store. -/
def is_duplicate (ex : String → Bool) (fps : Store) (file_hash : Option String) :
    Bool × Store :=
  match file_hash with
  | none => (false, fps)
  | some h =>
    if h = "" then (false, fps)
    else
      match lookupFP fps h with
      | none => (false, fps)
      | some entry =>
        match entry.path with
        | some p => if p ≠ "" && ex p then (true, fps) else (false, eraseFP fps h)
        | none => (false, eraseFP fps h)

/-- `FingerprintManager.record_fingerprint` (fingerprint.py:111–132).

`mtime`/`fsize` are the external `stat` results for `path`; the source
stores them only when `path.exists()` (else `None`). -/
def record_fingerprint (ex : String → Bool) (mtime : Int) (fsize : Nat) (alg : String)
    (fps : Store) (file_hash : Option String) (path : String) : Store :=
  match file_hash with
  | none => fps
  | some h =>
    if h = "" then fps
    else
      insertFP fps h
        { path := some path
          timestamp := if ex path then some mtime else none
          size := if ex path then some fsize else none
          algorithm := alg }

/-- `FingerprintManager._cleanup_stale_fingerprints` (fingerprint.py:162–175):
drop every entry whose recorded path no longer exists.  The source checks
`Path(entry.get('path', ''))`, so a missing path falls back to `""`
(Python's `Path('')` is the current directory). -/
def cleanup_stale_fingerprints (ex : String → Bool) (fps : Store) : Store :=
  fps.filter (fun pe => ex ((pe.2).path.getD ""))

/-- Spec-side predicate, worded after the specification: the store contains
an entry for `d` whose recorded path still exists on disk. -/
def hasLiveEntry (ex : String → Bool) (fps : Store) (d : String) : Bool :=
  match lookupFP fps d with
  | some e =>
    match e.path with
    | some p => ex p
    | none => false
  | none => false

/-! ## Persisting the store (`save_fingerprints`, fingerprint.py:177–209)

The two disk locations involved — the active store file
`fingerprints_<alg>.json` and its backup `fingerprints_<alg>.json.bak` —
are modelled by their optional contents.  `Path.rename` is given POSIX
semantics (an existing target is replaced).  `writeOk` is the external
outcome of `json.dump`; when it fails, `torn` is whatever partial content
the aborted write left in the store file (`open(..., 'w')` creates it). -/

/-- Contents of the store file and of its `.json.bak` backup. -/
structure StoreFiles where
  storeFile : Option String
  bakFile : Option String
deriving DecidableEq, Repr

/-- `FingerprintManager.save_fingerprints`.  Returns the resulting disk
state together with a flag that is `true` exactly when the write succeeded
(the source logs success only after `json.dump` returns; on failure the
`except` branch renames the backup over the store file when one exists). -/
def save_fingerprints (writeOk : Bool) (torn : Option String) (newData : String)
    (sf : StoreFiles) : StoreFiles × Bool :=
  let sf1 : StoreFiles :=
    match sf.storeFile with
    | some old => { storeFile := none, bakFile := some old }
    | none => sf
  if writeOk then ({ sf1 with storeFile := some newData }, true)
  else
    let sf2 : StoreFiles := { sf1 with storeFile := torn }
    match sf2.bakFile with
    | some b => ({ storeFile := some b, bakFile := none }, false)
    | none => (sf2, false)

/-! ## Destination planning (`file_mover.py`)

Paths handed to the planner are a directory (list of components, as in
`pathlib.PurePath.parts`) plus a final file name.  Existence of a planned
destination is the external oracle `ex : DPath → Bool`. -/

/-- A destination path: directory components plus file name. -/
structure DPath where
  dir : List String
  name : String
deriving DecidableEq, Repr

/-- Zero-padded decimal rendering (strftime `%Y`/`%m`/…, format `:03d`). -/
def padZero (w : Nat) (n : Nat) : String :=
  let s := toString n
  String.mk (List.replicate (w - s.length) '0') ++ s

/-- The characters replaced by `_` in `FileMover._sanitize_filename`. -/
def reservedChars : List Char := ['<', '>', ':', '"', '/', '\\', '|', '?', '*']

/-- Python `str.strip(chars)`: drop characters of `cs` from both ends. -/
def stripSet (cs : List Char) (l : List Char) : List Char :=
  ((l.dropWhile cs.contains).reverse.dropWhile cs.contains).reverse

/-- `FileMover._sanitize_filename` (file_mover.py:174–200): replace the
filesystem-reserved characters with `_`, strip leading/trailing dots and
spaces, substitute `unnamed_file` when empty, and cap at 200 characters. -/
def sanitize_filename (fn : String) : String :=
  let l := fn.data.map (fun c => if reservedChars.contains c then '_' else c)
  let l := stripSet ['.', ' '] l
  let l := if l.isEmpty then "unnamed_file".data else l
  String.mk (l.take 200)

/-- Index of the last `'.'` in a character list, if any. -/
def lastDotIdx : List Char → Option Nat
  | [] => none
  | c :: rest =>
    match lastDotIdx rest with
    | some i => some (i + 1)
    | none => if c = '.' then some 0 else none

/-- `pathlib` stem/suffix split of a file name: the suffix starts at the
last dot, provided that dot is neither the first nor the last character. -/
def splitExt (name : String) : String × String :=
  let l := name.data
  match lastDotIdx l with
  | some i =>
      if 0 < i ∧ i + 1 < l.length then (String.mk (l.take i), String.mk (l.drop i))
      else (name, "")
  | none => (name, "")

/-- The date-format template, tokenized: literal text plus the strftime
placeholders used by the organizer (`%Y %m %d %H %M %S %f`). -/
inductive FmtTok where
  | lit (s : String)
  | tY
  | tm
  | td
  | tH
  | tM
  | tS
  | tf
deriving DecidableEq, Repr

/-- Render one strftime token for a datetime. -/
def strftimeTok (cd : CDate) : FmtTok → String
  | .lit s => s
  | .tY => padZero 4 cd.year
  | .tm => padZero 2 cd.month
  | .td => padZero 2 cd.day
  | .tH => padZero 2 cd.hour
  | .tM => padZero 2 cd.minute
  | .tS => padZero 2 cd.second
  | .tf => padZero 6 cd.microsecond

/-- `datetime.strftime` over a tokenized format string. -/
def strftime (cd : CDate) (fmtl : List FmtTok) : String :=
  (fmtl.map (strftimeTok cd)).foldl (· ++ ·) ""

/-- `'%f' in self.date_format`. -/
def hasSubsecTok (fmtl : List FmtTok) : Bool := fmtl.contains .tf

/-- The metadata the planner consults (`metadata['creation_date']`,
`metadata['file_ctime']` as produced by `MetadataParser.extract_metadata`). -/
structure FMeta where
  creation_date : Option CDate
  file_ctime : Option CDate
deriving DecidableEq, Repr

/-- The configuration fields read by `FileMover.__init__`
(file_mover.py:35–41), restricted to those the planner uses. -/
structure MovCfg where
  output_folder : List String
  unknown_strategy : String
  conflict_resolution : String
  date_format : List FmtTok

/-- `FileMover._generate_filename` (file_mover.py:132–172).

`md5tok3` is the external `hashlib.md5(str(file_path))` token: the first
three hex digits of the md5 of the source path, used when the format
requests `%f` but the microsecond field is zero.  With no date the
original stem is used.  The result is sanitized and the original
extension appended unsanitized. -/
def generate_filename (dateFmt : List FmtTok) (md5tok3 : String) (stem ext : String)
    (cd? : Option CDate) : String :=
  let base :=
    match cd? with
    | some cd =>
      let b := strftime cd dateFmt
      if hasSubsecTok dateFmt && cd.microsecond == 0 then
        b.replace "000000" md5tok3.toUpper
      else if hasSubsecTok dateFmt then
        b.replace (padZero 6 cd.microsecond) (padZero 3 (cd.microsecond / 1000))
      else b
    | none => stem
  sanitize_filename base ++ ext

/-- The `while True` counter loop of the timestamp-suffix policy
(file_mover.py:224–235): try `_HHMMSS_NNN` for `NNN = counter, counter+1,
…`; `fuel` counts the remaining increments before the `counter > 999`
UUID fallback fires. -/
def tsCounterLoop (ex : DPath → Bool) (dir : List String) (stem suffix nowHMS uuidHex : String) :
    Nat → Nat → DPath
  | counter, fuel =>
    let cand : DPath := ⟨dir, stem ++ "_" ++ nowHMS ++ "_" ++ padZero 3 counter ++ suffix⟩
    if ex cand = false then cand
    else
      match fuel with
      | 0 => ⟨dir, stem ++ "_" ++ uuidHex ++ suffix⟩
      | f + 1 => tsCounterLoop ex dir stem suffix nowHMS uuidHex (counter + 1) f

/-- `FileMover._resolve_filename_conflict` (file_mover.py:202–251).

`nowHMS` is the external `datetime.now().strftime("%H%M%S")` and
`uuidHex` the external `uuid.uuid4().hex[:8]`.  A non-colliding path is
returned unchanged; under the timestamp policy counters 1–999 are tried
before the UUID fallback; the unrecognized-policy default appends the
time with no counter. -/
def resolve_filename_conflict (policy : String) (ex : DPath → Bool)
    (nowHMS uuidHex : String) (p : DPath) : DPath :=
  if ex p = false then p
  else
    let se := splitExt p.name
    let stem := se.1
    let suffix := se.2
    if policy == "timestamp_suffix" then
      tsCounterLoop ex p.dir stem suffix nowHMS uuidHex 1 998
    else if policy == "uuid_suffix" then
      ⟨p.dir, stem ++ "_" ++ uuidHex ++ suffix⟩
    else if policy == "overwrite" then p
    else ⟨p.dir, stem ++ "_" ++ nowHMS ++ suffix⟩

/-- The destination computed by `FileMover.determine_destination`
(file_mover.py:84–125) before conflict resolution: directory from the
resolved date (or the unknown-date strategy) plus the generated file
name.  `relParts` are the components of
`file_path.relative_to(input_folder)` without the file name itself, so
the file sits directly in the input root iff `relParts = []`. -/
def preDestination (cfg : MovCfg) (md5tok3 : String) (relParts : List String)
    (stem ext : String) (md : FMeta) : DPath :=
  let destDir :=
    match md.creation_date with
    | some cd => cfg.output_folder ++ [padZero 4 cd.year, padZero 2 cd.month]
    | none =>
      if cfg.unknown_strategy == "use_ctime" then
        match md.file_ctime with
        | some ct => cfg.output_folder ++ [padZero 4 ct.year, padZero 2 ct.month]
        | none => cfg.output_folder ++ ["unknown"]
      else
        cfg.output_folder ++ "unknown" :: relParts
  ⟨destDir, generate_filename cfg.date_format md5tok3 stem ext md.creation_date⟩

/-- `FileMover.determine_destination` (file_mover.py:84–130): plan the
destination, then resolve conflicts against the existing files `ex`. -/
def determine_destination (cfg : MovCfg) (ex : DPath → Bool)
    (nowHMS uuidHex md5tok3 : String) (relParts : List String)
    (stem ext : String) (md : FMeta) : DPath :=
  resolve_filename_conflict cfg.conflict_resolution ex nowHMS uuidHex
    (preDestination cfg md5tok3 relParts stem ext md)

/-! ## Transfer executor (`FileMover.copy_file`, file_mover.py:253–315)

The filesystem the executor sees and mutates is a list of existing file
paths and a list of existing directories (paths as plain strings here,
matching the `str(path)` keys the source uses).  `ioOk a` is the external
outcome of the `shutil.copy2` call on attempt `a` (`false` = the call
raised `OSError`/`PermissionError`). -/

/-- Executor-visible filesystem state. -/
structure FileSys where
  files : List String
  dirs : List String
deriving DecidableEq, Repr

/-- `destination_path.parent.mkdir(parents=True, exist_ok=True)`: record
the destination's parent directory as existing (ancestor directories are
elided; only the leaf directory is tracked). -/
def mkdirParents (sys : FileSys) (d : String) : FileSys :=
  if sys.dirs.contains d then sys else { sys with dirs := d :: sys.dirs }

/-- The `for attempt in range(MAX_RETRY_ATTEMPTS)` retry loop of
`copy_file` (file_mover.py:283–311): a missing source is a non-retryable
failure; a raising `copy2` is retried while attempts remain; a successful
`copy2` creates the destination, which the post-copy existence check then
confirms.  `fuel` is the number of attempts still allowed after this one. -/
def copyAttemptLoop (ioOk : Nat → Bool) (src dst : String) (sys : FileSys) :
    Nat → Nat → Bool × FileSys
  | attempt, fuel =>
    if sys.files.contains src = false then (false, sys)
    else if ioOk attempt then (true, { sys with files := dst :: sys.files })
    else
      match fuel with
      | 0 => (false, sys)
      | f + 1 => copyAttemptLoop ioOk src dst sys (attempt + 1) f

/-- `FileMover.copy_file`.  Returns (success, updated processed-set,
updated filesystem).  Note the order in the source: the
already-processed guard, then `mkdir` of the destination's parent, and
only then the dry-run branch — so dry-run mode still creates the
destination directory, and the dry-run branch returns success without
testing `source_path.exists()` (the `stat` there only feeds a log line). -/
def copy_file (dryRun : Bool) (ioOk : Nat → Bool) (copiedFiles : List String)
    (sys : FileSys) (src dstParent dst : String) : Bool × List String × FileSys :=
  if copiedFiles.contains src then (false, copiedFiles, sys)
  else
    let sys1 := mkdirParents sys dstParent
    if dryRun then (true, src :: copiedFiles, sys1)
    else
      let r := copyAttemptLoop ioOk src dst sys1 0 2
      (r.1, if r.1 then src :: copiedFiles else copiedFiles, r.2)

/-! ## Filename date extraction (`metadata_parser.py`)

The Python `re` engine is external: each entry of the per-pattern match
list is `none` (no match in the filename) or `some groups`, the captured
groups of the first match.  Every group of `DATE_PATTERNS` and
`TIME_PATTERNS` captures a run of digits, represented by its character
count (`len(groups[i])`) and its numeric value (`int(groups[i])`). -/

/-- One captured regex group: a digit run with its length and value. -/
structure MGroup where
  len : Nat
  val : Nat
deriving DecidableEq, Repr

/-- Proleptic-Gregorian leap year, as `datetime` uses. -/
def isLeap (y : Nat) : Bool := (y % 4 == 0 && y % 100 != 0) || y % 400 == 0

/-- Days in a month, as `datetime` validates them. -/
def daysInMonth (y mo : Nat) : Nat :=
  if mo == 2 then (if isLeap y then 29 else 28)
  else if mo == 4 || mo == 6 || mo == 9 || mo == 11 then 30
  else 31

/-- The `datetime(year, month, day, hour, minute, second)` constructor:
`none` models the `ValueError` it raises on out-of-range components
(including a day that does not exist in the given month). -/
def mkDatetime (y mo d h mi s : Nat) : Option CDate :=
  if 1 ≤ y ∧ y ≤ 9999 ∧ 1 ≤ mo ∧ mo ≤ 12 ∧ 1 ≤ d ∧ d ≤ daysInMonth y mo
      ∧ h ≤ 23 ∧ mi ≤ 59 ∧ s ≤ 59 then
    some ⟨y, mo, d, h, mi, s, 0⟩
  else none

/-- `MetadataParser._extract_time_from_filename`
(metadata_parser.py:312–337): first `TIME_PATTERNS` match with valid
components wins; default `(0, 0, 0)`. -/
def extract_time_from_filename : List (Option (List MGroup)) → Nat × Nat × Nat
  | [] => (0, 0, 0)
  | none :: rest => extract_time_from_filename rest
  | some gs :: rest =>
    match gs with
    | g0 :: g1 :: g2 :: _ =>
      if g0.val ≤ 23 ∧ g1.val ≤ 59 ∧ g2.val ≤ 59 then (g0.val, g1.val, g2.val)
      else extract_time_from_filename rest
    | _ => extract_time_from_filename rest

/-- The body of the `for pattern in DATE_PATTERNS` loop
(metadata_parser.py:278–308) for one match: pick year/month/day by the
first group's width, take the time from groups 4–6 when present and from
the separate time patterns otherwise, range-check month/day/year, and
build the datetime.  `none` is the fall-through to the next pattern —
whether from the range check failing or from the caught `ValueError` of
an invalid calendar date. -/
def try_date_groups (tm : List (Option (List MGroup))) (gs : List MGroup) : Option CDate :=
  match gs with
  | g0 :: g1 :: g2 :: rest =>
    let ymd := if g0.len == 4 then (g0.val, g1.val, g2.val) else (g2.val, g0.val, g1.val)
    let hms :=
      match rest with
      | g3 :: g4 :: g5 :: _ => (g3.val, g4.val, g5.val)
      | _ => extract_time_from_filename tm
    if 1 ≤ ymd.2.1 ∧ ymd.2.1 ≤ 12 ∧ 1 ≤ ymd.2.2 ∧ ymd.2.2 ≤ 31
        ∧ 1900 ≤ ymd.1 ∧ ymd.1 ≤ 3000 then
      mkDatetime ymd.1 ymd.2.1 ymd.2.2 hms.1 hms.2.1 hms.2.2
    else none
  | _ => none

/-- `MetadataParser._extract_from_filename` (metadata_parser.py:263–310):
scan the date patterns in order; a rejected or exception-raising match
falls through to the next pattern; `none` when no pattern yields a valid
date.  `tm` is the match list for the separate time patterns. -/
def extract_from_filename (tm : List (Option (List MGroup))) :
    List (Option (List MGroup)) → Option CDate
  | [] => none
  | none :: rest => extract_from_filename tm rest
  | some gs :: rest =>
    match try_date_groups tm gs with
    | some dt => some dt
    | none => extract_from_filename tm rest

/-! ## EXIF sub-second merge (`metadata_parser.py:201–214`)

The value found under the companion `f"{field}SubSec"` key of the
ExifTool JSON map is a Python scalar: a string or an integer (or absent).
The source guards it with truthiness, converts with `int()` (whose
`ValueError`/`TypeError` is caught and ignored), and merges via
`creation_date.replace(microsecond=…)`, whose own `ValueError` on a
value outside `0..999999` is caught by the same handler. -/

/-- A scalar from the parsed ExifTool JSON. -/
inductive PyVal where
  | vNull
  | vStr (s : String)
  | vInt (n : Int)
deriving DecidableEq, Repr

/-- Python truthiness for such a scalar. -/
def truthyVal : PyVal → Bool
  | .vNull => false
  | .vStr s => s ≠ ""
  | .vInt n => n ≠ 0

/-- Python `int()` on a string: optional surrounding whitespace
(ASCII whitespace modelled), optional sign, at least one digit; anything
else raises (`none`). -/
def pyIntOfStr (s : String) : Option Int :=
  let t := stripSet [' ', '\t', '\n', '\r'] s.data
  let sd : Int × List Char :=
    match t with
    | '-' :: rest => (-1, rest)
    | '+' :: rest => (1, rest)
    | l => (1, l)
  if sd.2 ≠ [] ∧ sd.2.all Char.isDigit then
    some (sd.1 * (sd.2.foldl (fun acc c => acc * 10 + (c.toNat - 48)) (0 : Nat) : Nat))
  else none

/-- Python `int()` on a JSON scalar (`int(None)` raises `TypeError`). -/
def pyIntOfVal : PyVal → Option Int
  | .vNull => none
  | .vStr s => pyIntOfStr s
  | .vInt n => some n

/-- The sub-second merge block of `MetadataParser._extract_with_exiftool`
(metadata_parser.py:201–214), applied to an already-parsed creation date:
`subsecVal` is the value of the companion field (`none` when the key is
absent).  A falsy value skips the merge entirely; `int()` failure or a
`replace` out-of-range failure leaves the date unchanged; otherwise a
value under 1000 is scaled to microseconds and a larger one used as-is. -/
def mergeSubsec (dt : CDate) (subsecVal : Option PyVal) : CDate :=
  match subsecVal with
  | none => dt
  | some v =>
    if truthyVal v then
      match pyIntOfVal v with
      | none => dt
      | some s =>
        let micro : Int := if s < 1000 then s * 1000 else s
        if 0 ≤ micro ∧ micro ≤ 999999 then { dt with microsecond := micro.toNat }
        else dt
    else dt

/-! ## The organize pipeline (`__main__.py:114–258`)

One pipeline state bundles the fingerprint store, the `FileMover`'s
processed-set, the filesystem and the running summary.  Per file, the
results of the external collaborators (content hash, destination plan,
`stat` of the destination) are carried on the file record itself:
metadata extraction and destination planning are modelled separately
above, and the pipeline consumes their results. -/

/-- The summary counters of `run_organization` (__main__.py:137–143). -/
structure Summary where
  copied : Nat
  skipped : Nat
  duplicates : Nat
  errors : Nat
  unknown : Nat
deriving DecidableEq, Repr

/-- Pipeline state during a run. -/
structure PipeState where
  store : Store
  copiedFiles : List String
  sys : FileSys
  summary : Summary
deriving DecidableEq

/-- One scanned file together with the results of the external
collaborators for it: `hash` is what `calculate_hash` returned, `dest`
and `destParent` what `determine_destination` returned, `mtime`/`size`
the `stat` of the destination (used by `record_fingerprint`). -/
structure PFile where
  path : String
  hash : Option String
  destParent : String
  dest : String
  mtime : Int
  size : Nat
deriving DecidableEq, Repr

/-- Existence oracle induced by the pipeline's filesystem. -/
def exSys (sys : FileSys) : String → Bool := fun p => sys.files.contains p

/-- The body of the `for file_path in file_mover.scan_files(...)` loop
(__main__.py:148–212): duplicate check, copy (or simulate), fingerprint
recording, and summary bookkeeping. -/
def process_one_file (dryRun : Bool) (ioOk : Nat → Bool) (alg : String)
    (st : PipeState) (f : PFile) : PipeState :=
  let dup := is_duplicate (exSys st.sys) st.store f.hash
  if dup.1 then
    { st with store := dup.2
              summary := { st.summary with duplicates := st.summary.duplicates + 1 } }
  else
    let cp := copy_file dryRun ioOk st.copiedFiles st.sys f.path f.destParent f.dest
    if cp.1 then
      { store := record_fingerprint (exSys cp.2.2) f.mtime f.size alg dup.2 f.hash f.dest
        copiedFiles := cp.2.1
        sys := cp.2.2
        summary := { st.summary with copied := st.summary.copied + 1 } }
    else
      { store := dup.2
        copiedFiles := cp.2.1
        sys := cp.2.2
        summary := { st.summary with skipped := st.summary.skipped + 1 } }

/-- The whole scan loop over the discovered files, in scan order. -/
def processFiles (dryRun : Bool) (ioOk : Nat → Bool) (alg : String)
    (st : PipeState) : List PFile → PipeState
  | [] => st
  | f :: rest => processFiles dryRun ioOk alg (process_one_file dryRun ioOk alg st f) rest

/-- How a run ends: normal completion, or an interruption (cooperative
cancellation via `KeyboardInterrupt`, or an unexpected error escaping the
per-file handler) after `k` files were processed. -/
inductive RunEvent where
  | completed
  | interrupted (k : Nat)
deriving DecidableEq, Repr

/-- Either the summary returned normally, or the propagated exception. -/
inductive RunOutcome where
  | ok (s : Summary)
  | err (msg : String)
deriving DecidableEq, Repr

/-- Result of `run_organization`: whether `save_fingerprints` was
invoked, and either the summary (normal return) or the propagated error. -/
structure RunResult where
  saveCalled : Bool
  outcome : RunOutcome
deriving DecidableEq, Repr

/-- `run_organization` (__main__.py:114–258), control-flow skeleton.

The store is loaded (and stale entries pruned) first; a missing input
folder then raises `FileNotFoundError`, which the `except` clause logs
and re-raises — without saving.  An interruption likewise propagates
without saving: the `try` has no `finally`, so `save_fingerprints` runs
only after the loop completes normally.  `loaded` is the store read by
`load_existing_fingerprints`; `st0` carries the initial filesystem and
the zeroed summary. -/
def run_organization (inputExists : Bool) (ev : RunEvent) (dryRun : Bool)
    (ioOk : Nat → Bool) (alg : String) (loaded : Store) (st0 : PipeState)
    (files : List PFile) : RunResult × PipeState :=
  let st1 : PipeState :=
    { st0 with store := cleanup_stale_fingerprints (exSys st0.sys) loaded }
  if inputExists = false then
    ({ saveCalled := false, outcome := .err "FileNotFoundError" }, st1)
  else
    match ev with
    | .interrupted k =>
        let st2 := processFiles dryRun ioOk alg st1 (files.take k)
        ({ saveCalled := false, outcome := .err "interrupted" }, st2)
    | .completed =>
        let st2 := processFiles dryRun ioOk alg st1 files
        ({ saveCalled := true, outcome := .ok st2.summary }, st2)

/-! ## Auxiliary predicates and concrete fixtures used by the theorems -/

/-- Every entry of the store records a path that is not among the
existing files (no entry is "live"). -/
def storeStale (filesL : List String) (fps : Store) : Prop :=
  ∀ kp ∈ fps, ∀ p, (kp.2 : FPEntry).path = some p → filesL.contains p = false

/-- A regex date match with month 13 (out of range). -/
def gsMonth13 : List MGroup := [⟨4, 2024⟩, ⟨2, 13⟩, ⟨2, 5⟩]

/-- A store holding one live entry under the empty-string digest. -/
def storeEmptyKey : Store := [("", ⟨some "kept.jpg", none, none, "sha256"⟩)]

/-- Existence oracle for the fixture: only `kept.jpg` exists. -/
def exKept : String → Bool := fun p => p == "kept.jpg"

/-- Fixture store with one live entry under digest `d9`. -/
def storeD9 : Store := [("d9", ⟨some "pics/a.jpg", some 5, some 3, "sha256"⟩)]

/-- Existence oracle for the `storeD9` fixture. -/
def exPics : String → Bool := fun p => p == "pics/a.jpg"

/-- Planner configuration fixture: year-only format, timestamp conflicts. -/
def cfgY : MovCfg := ⟨["out"], "route_to_unknown", "timestamp_suffix", [.tY]⟩

/-- Existing-destination oracle fixture: exactly the unsuffixed plan exists. -/
def exOut : DPath → Bool := fun p => p == ⟨["out", "2024", "07"], "2024.jpg"⟩

/-- Metadata fixture with a resolved date (2024-07-16 18:22:07). -/
def mdJul : FMeta := ⟨some ⟨2024, 7, 16, 18, 22, 7, 0⟩, none⟩

/-- Planner configuration fixture for the unknown-date route. -/
def cfgUnknown : MovCfg := ⟨["output"], "route_to_unknown", "timestamp_suffix", []⟩

/-- A parsed EXIF date carrying a nonzero microsecond component. -/
def dtMicro : CDate := ⟨2024, 7, 16, 18, 22, 7, 123456⟩

/-- Pipeline fixture: two source files exist, output tree empty. -/
def stTwoSources : PipeState :=
  { store := []
    copiedFiles := []
    sys := ⟨["in/a.jpg", "in/b.jpg"], []⟩
    summary := ⟨0, 0, 0, 0, 0⟩ }

/-- First file of the duplicate-pair fixture. -/
def fileA : PFile := ⟨"in/a.jpg", some "d1", "out/2024/07", "out/2024/07/x.jpg", 7, 3⟩

/-- Second file of the duplicate-pair fixture: identical content hash. -/
def fileB : PFile := ⟨"in/b.jpg", some "d1", "out/2024/07", "out/2024/07/y.jpg", 7, 3⟩

/-- Filesystem of a later run: the copy of `fileA` still exists. -/
def sysOut : FileSys := ⟨["out/2024/07/x.jpg"], []⟩

/-- Initial state of a later run: the store persisted after `fileA` was
copied, re-loaded and pruned against the later filesystem. -/
def stSecondRun : PipeState :=
  { store := cleanup_stale_fingerprints (exSys sysOut)
      (process_one_file false (fun _ => true) "sha256" stTwoSources fileA).store
    copiedFiles := []
    sys := sysOut
    summary := ⟨0, 0, 0, 0, 0⟩ }

/-! ## Helper lemmas -/

theorem mem_eraseFP {fps : Store} {h : String} {kp : String × FPEntry}
    (hm : kp ∈ eraseFP fps h) : kp ∈ fps := by
  induction fps with
  | nil => simp [eraseFP] at hm
  | cons a rest ih =>
    obtain ⟨k, e0⟩ := a
    by_cases hk : k = h
    · rw [show eraseFP ((k, e0) :: rest) h = rest by simp [eraseFP, hk]] at hm
      exact List.mem_cons_of_mem _ hm
    · rw [show eraseFP ((k, e0) :: rest) h = (k, e0) :: eraseFP rest h by
          simp [eraseFP, hk]] at hm
      rcases List.mem_cons.mp hm with h1 | h2
      · exact h1 ▸ List.mem_cons_self _ _
      · exact List.mem_cons_of_mem _ (ih h2)

theorem mem_insertFP {fps : Store} {h : String} {e : FPEntry} {kp : String × FPEntry}
    (hm : kp ∈ insertFP fps h e) : kp ∈ fps ∨ kp = (h, e) := by
  induction fps with
  | nil =>
    simp [insertFP] at hm
    exact Or.inr hm
  | cons a rest ih =>
    obtain ⟨k, e0⟩ := a
    by_cases hk : k = h
    · rw [show insertFP ((k, e0) :: rest) h e = (k, e) :: rest by simp [insertFP, hk]] at hm
      rcases List.mem_cons.mp hm with h1 | h2
      · right
        rw [h1, hk]
      · exact Or.inl (List.mem_cons_of_mem _ h2)
    · rw [show insertFP ((k, e0) :: rest) h e = (k, e0) :: insertFP rest h e by
          simp [insertFP, hk]] at hm
      rcases List.mem_cons.mp hm with h1 | h2
      · exact Or.inl (h1 ▸ List.mem_cons_self _ _)
      · rcases ih h2 with h3 | h4
        · exact Or.inl (List.mem_cons_of_mem _ h3)
        · exact Or.inr h4

theorem lookupFP_insertFP_self (fps : Store) (h : String) (e : FPEntry) :
    lookupFP (insertFP fps h e) h = some e := by
  induction fps with
  | nil => simp [insertFP, lookupFP]
  | cons a rest ih =>
    obtain ⟨k, e0⟩ := a
    by_cases hk : k = h
    · simp [insertFP, hk, lookupFP]
    · simp [insertFP, hk, lookupFP, ih]

theorem lookupFP_cleanup (ex : String → Bool) (fps : Store) (d : String) (e : FPEntry)
    (hl : lookupFP fps d = some e) (hlive : ex (e.path.getD "") = true) :
    lookupFP (cleanup_stale_fingerprints ex fps) d = some e := by
  induction fps with
  | nil => simp [lookupFP] at hl
  | cons a rest ih =>
    obtain ⟨k, e0⟩ := a
    by_cases hk : k = d
    · have he : e0 = e := by simpa [lookupFP, hk] using hl
      subst he
      have hkeep : ex (e0.path.getD "") = true := hlive
      unfold cleanup_stale_fingerprints
      rw [List.filter_cons]
      simp only [hkeep, if_true]
      simp [lookupFP, hk]
    · have hl' : lookupFP rest d = some e := by simpa [lookupFP, hk] using hl
      have ih' := ih hl'
      unfold cleanup_stale_fingerprints
      rw [List.filter_cons]
      by_cases hkeep : ex (e0.path.getD "") = true
      · simp only [hkeep, if_true]
        simpa [lookupFP, hk, cleanup_stale_fingerprints] using ih'
      · simp only [Bool.not_eq_true] at hkeep
        simp only [hkeep, Bool.false_eq_true, if_false]
        simpa [cleanup_stale_fingerprints] using ih'

theorem mkdirParents_files (sys : FileSys) (d : String) :
    (mkdirParents sys d).files = sys.files := by
  unfold mkdirParents
  split <;> rfl

theorem lookupFP_mem {fps : Store} {d : String} {e : FPEntry}
    (hl : lookupFP fps d = some e) : (d, e) ∈ fps := by
  induction fps with
  | nil => simp [lookupFP] at hl
  | cons a rest ih =>
    obtain ⟨k, e0⟩ := a
    by_cases hk : k = d
    · have he : e0 = e := by simpa [lookupFP, hk] using hl
      subst hk
      subst he
      exact List.mem_cons_self _ _
    · have hl' : lookupFP rest d = some e := by simpa [lookupFP, hk] using hl
      exact List.mem_cons_of_mem _ (ih hl')

theorem is_duplicate_stale_false (sys : FileSys) (fps : Store) (h? : Option String)
    (hst : storeStale sys.files fps) :
    (is_duplicate (exSys sys) fps h?).1 = false
    ∧ ∀ kp, kp ∈ (is_duplicate (exSys sys) fps h?).2 → kp ∈ fps := by
  cases h? with
  | none => exact ⟨rfl, fun kp hkp => hkp⟩
  | some h =>
    by_cases hh : h = ""
    · subst hh
      constructor
      · simp [is_duplicate]
      · intro kp hkp
        simpa [is_duplicate] using hkp
    · cases hl : lookupFP fps h with
      | none =>
        constructor
        · simp [is_duplicate, hh, hl]
        · intro kp hkp
          simpa [is_duplicate, hh, hl] using hkp
      | some e =>
        cases hpth : e.path with
        | none =>
          constructor
          · simp [is_duplicate, hh, hl, hpth]
          · intro kp hkp
            simp only [is_duplicate, hh, hl, hpth] at hkp
            exact mem_eraseFP (by simpa using hkp)
        | some p =>
          have hnp : exSys sys p = false :=
            hst (h, e) (lookupFP_mem hl) p hpth
          constructor
          · simp [is_duplicate, hh, hl, hpth, hnp]
          · intro kp hkp
            simp only [is_duplicate, hh, hl, hpth, hnp, Bool.and_false] at hkp
            exact mem_eraseFP (by simpa using hkp)

theorem process_one_file_dry (ioOk : Nat → Bool) (alg : String) (st : PipeState) (f : PFile)
    (hst : storeStale st.sys.files st.store)
    (hcp : st.copiedFiles.contains f.path = false)
    (hdest : st.sys.files.contains f.dest = false) :
    (process_one_file true ioOk alg st f).summary.copied = st.summary.copied + 1
    ∧ (process_one_file true ioOk alg st f).sys.files = st.sys.files
    ∧ (process_one_file true ioOk alg st f).copiedFiles = f.path :: st.copiedFiles
    ∧ storeStale st.sys.files (process_one_file true ioOk alg st f).store := by
  obtain ⟨hdup, hsub⟩ := is_duplicate_stale_false st.sys st.store f.hash hst
  have hcpy : copy_file true ioOk st.copiedFiles st.sys f.path f.destParent f.dest
      = (true, f.path :: st.copiedFiles, mkdirParents st.sys f.destParent) := by
    unfold copy_file
    rw [hcp]
    simp
  have hone : process_one_file true ioOk alg st f
      = { store := record_fingerprint (exSys (mkdirParents st.sys f.destParent))
            f.mtime f.size alg (is_duplicate (exSys st.sys) st.store f.hash).2 f.hash f.dest
          copiedFiles := f.path :: st.copiedFiles
          sys := mkdirParents st.sys f.destParent
          summary := { st.summary with copied := st.summary.copied + 1 } } := by
    unfold process_one_file
    simp only [hcpy, hdup]
    simp
  rw [hone]
  refine ⟨rfl, mkdirParents_files _ _, rfl, ?_⟩
  intro kp hkp p hp
  have hkp' : kp ∈ record_fingerprint (exSys (mkdirParents st.sys f.destParent))
      f.mtime f.size alg (is_duplicate (exSys st.sys) st.store f.hash).2 f.hash f.dest := hkp
  cases hh : f.hash with
  | none =>
    rw [hh] at hkp' hsub
    simp only [record_fingerprint] at hkp'
    exact hst kp (hsub kp hkp') p hp
  | some h =>
    rw [hh] at hkp' hsub
    by_cases hhe : h = ""
    · subst hhe
      simp [record_fingerprint] at hkp'
      exact hst kp (hsub kp hkp') p hp
    · simp only [record_fingerprint, hhe, if_false] at hkp'
      rcases mem_insertFP hkp' with hin | heq
      · exact hst kp (hsub kp hin) p hp
      · rw [heq] at hp
        have hp2 : some f.dest = some p := hp
        rw [← Option.some.inj hp2]
        exact hdest

theorem processFiles_dry (ioOk : Nat → Bool) (alg : String) :
    ∀ (fl : List PFile) (st : PipeState),
      storeStale st.sys.files st.store →
      (∀ f ∈ fl, st.copiedFiles.contains f.path = false) →
      (∀ f ∈ fl, st.sys.files.contains f.dest = false) →
      fl.Pairwise (fun f g => f.path ≠ g.path) →
      (processFiles true ioOk alg st fl).summary.copied = st.summary.copied + fl.length
      ∧ (processFiles true ioOk alg st fl).sys.files = st.sys.files := by
  intro fl
  induction fl with
  | nil =>
    intro st h1 h2 h3 h4
    exact ⟨rfl, rfl⟩
  | cons f rest ih =>
    intro st hst hcp hdest hpw
    obtain ⟨hc1, hf1, hcf1, hst1⟩ :=
      process_one_file_dry ioOk alg st f hst
        (hcp f (List.mem_cons_self _ _)) (hdest f (List.mem_cons_self _ _))
    rcases List.pairwise_cons.mp hpw with ⟨hfr, hpw'⟩
    have ihr := ih (process_one_file true ioOk alg st f)
      (by rw [hf1]; exact hst1)
      (by
        intro g hg
        rw [hcf1]
        have h2 := hcp g (List.mem_cons_of_mem _ hg)
        have h3 := hfr g hg
        simp
        refine ⟨fun hc => h3 hc.symm, ?_⟩
        simpa using h2)
      (by
        intro g hg
        rw [hf1]
        exact hdest g (List.mem_cons_of_mem _ hg))
      hpw'
    constructor
    · have : processFiles true ioOk alg st (f :: rest)
          = processFiles true ioOk alg (process_one_file true ioOk alg st f) rest := rfl
      rw [this, ihr.1, hc1]
      simp [List.length_cons]
      omega
    · have : processFiles true ioOk alg st (f :: rest)
          = processFiles true ioOk alg (process_one_file true ioOk alg st f) rest := rfl
      rw [this, ihr.2, hf1]

theorem process_one_file_dup (ioOk : Nat → Bool) (alg : String) (st : PipeState)
    (f : PFile) (d : String) (e : FPEntry) (p : String)
    (hf : f.hash = some d) (hd : d ≠ "")
    (hl : lookupFP st.store d = some e) (hpth : e.path = some p) (hpne : p ≠ "")
    (hex : st.sys.files.contains p = true) :
    process_one_file false ioOk alg st f
      = { st with summary := { st.summary with duplicates := st.summary.duplicates + 1 } } := by
  have hexm : p ∈ st.sys.files := by simpa using hex
  have hdup : is_duplicate (exSys st.sys) st.store f.hash = (true, st.store) := by
    rw [hf]
    simp [is_duplicate, hd, hl, hpth, hpne, exSys, hexm]
  unfold process_one_file
  simp only [hdup]
  simp

/-! ## Claim theorems -/

/-- C10: a hashing failure is converted to `None` rather than an
exception (`calculate_hash` of a failed read is `none`), and a missing
or empty digest makes `is_duplicate` answer `false` and
`record_fingerprint` a no-op — so a hash failure never classifies a file
as duplicate and leaves the fingerprint store exactly unchanged. -/
theorem hash_failure_leaves_store_unchanged :
    ∀ (md5 sha1 sha256 : List Nat → String) (alg : String) (ex : String → Bool)
      (fps : Store) (mt : Int) (sz : Nat) (p : String),
      calculate_hash md5 sha1 sha256 alg none = none
      ∧ is_duplicate ex fps none = (false, fps)
      ∧ is_duplicate ex fps (some "") = (false, fps)
      ∧ record_fingerprint ex mt sz alg fps none p = fps
      ∧ record_fingerprint ex mt sz alg fps (some "") p = fps := by
  intro md5 sha1 sha256 alg ex fps mt sz p
  refine ⟨rfl, rfl, ?_, rfl, ?_⟩
  · simp [is_duplicate]
  · simp [record_fingerprint]

/-- C1 counterexample: for the empty-string digest `is_duplicate`
answers `false` without consulting the store, even when the store holds
an entry for that digest whose recorded path exists on disk — refuting
the claimed equivalence quantified over every digest. -/
theorem is_duplicate_counterexample :
    (is_duplicate exKept storeEmptyKey (some "")).1 = false
    ∧ hasLiveEntry exKept storeEmptyKey "" = true := by
  exact ⟨rfl, rfl⟩

/-- C1 (amended): for every non-empty digest, against a store whose
entry for that digest (if any) records a non-empty path, `is_duplicate`
answers `true` iff the store holds an entry whose recorded path still
exists; with a stale entry it answers `false` and purges that entry;
with a live entry it leaves the store untouched. -/
theorem is_duplicate_amended (ex : String → Bool) (fps : Store) (d : String)
    (hd : d ≠ "")
    (hp : ∀ e, lookupFP fps d = some e → e.path ≠ some "") :
    ((is_duplicate ex fps (some d)).1 = true ↔ hasLiveEntry ex fps d = true)
    ∧ (∀ e, lookupFP fps d = some e → hasLiveEntry ex fps d = false →
        is_duplicate ex fps (some d) = (false, eraseFP fps d))
    ∧ (hasLiveEntry ex fps d = true → (is_duplicate ex fps (some d)).2 = fps) := by
  unfold is_duplicate hasLiveEntry
  cases hl : lookupFP fps d with
  | none => simp [hd, hl]
  | some e =>
    cases hpth : e.path with
    | none => simp [hd, hl, hpth]
    | some p =>
      have hpne : p ≠ "" := by
        intro hpe
        exact hp e hl (by rw [hpth, hpe])
      by_cases hex : ex p = true
      · simp [hd, hl, hpth, hex, hpne]
      · have hex' : ex p = false := by simpa using hex
        simp [hd, hl, hpth, hex', hpne]

/-- C1 witness: the amended theorem evaluated on a concrete store with a
live entry for digest `d9`. -/
theorem is_duplicate_amended_witness :
    ((is_duplicate exPics storeD9 (some "d9")).1 = true
        ↔ hasLiveEntry exPics storeD9 "d9" = true)
    ∧ (∀ e, lookupFP storeD9 "d9" = some e → hasLiveEntry exPics storeD9 "d9" = false →
        is_duplicate exPics storeD9 (some "d9") = (false, eraseFP storeD9 "d9"))
    ∧ (hasLiveEntry exPics storeD9 "d9" = true →
        (is_duplicate exPics storeD9 (some "d9")).2 = storeD9) :=
  is_duplicate_amended exPics storeD9 "d9" (by decide)
    (by
      intro e he
      have h2 : some (⟨some "pics/a.jpg", some 5, some 3, "sha256"⟩ : FPEntry) = some e := he
      rw [← Option.some.inj h2]
      decide)

/-- C5: `save_fingerprints` follows the backup-and-restore discipline:
an existing store file is renamed to the `.json.bak` backup before the
write; the operation reports success only when the write succeeds (old
contents then sit in the backup); and when the write fails the backup is
renamed back, so the previous store file survives a failed save. -/
theorem save_fingerprints_backup_discipline (writeOk : Bool) (torn : Option String)
    (newData old : String) (sf : StoreFiles) (h : sf.storeFile = some old) :
    (writeOk = true →
      save_fingerprints writeOk torn newData sf
        = ({ storeFile := some newData, bakFile := some old }, true))
    ∧ (writeOk = false →
      save_fingerprints writeOk torn newData sf
        = ({ storeFile := some old, bakFile := none }, false)) := by
  unfold save_fingerprints
  rw [h]
  constructor <;> intro hw <;> subst hw <;> rfl

/-- C5 witness: the discipline evaluated on both outcomes for a concrete
pre-existing store file. -/
theorem save_fingerprints_backup_discipline_witness :
    ((true = true →
       save_fingerprints true (some "torn") "new" ⟨some "old", none⟩
         = (⟨some "new", some "old"⟩, true))
      ∧ (true = false →
       save_fingerprints true (some "torn") "new" ⟨some "old", none⟩
         = (⟨some "old", none⟩, false)))
    ∧ ((false = true →
       save_fingerprints false (some "torn") "new" ⟨some "old", none⟩
         = (⟨some "new", some "old"⟩, true))
      ∧ (false = false →
       save_fingerprints false (some "torn") "new" ⟨some "old", none⟩
         = (⟨some "old", none⟩, false))) :=
  ⟨save_fingerprints_backup_discipline true (some "torn") "new" "old" ⟨some "old", none⟩ rfl,
   save_fingerprints_backup_discipline false (some "torn") "new" "old" ⟨some "old", none⟩ rfl⟩

/-- C6: a filename date match whose components are rejected — by the
explicit month/day/year range check (year outside [1900, 3000], month
not in 1..12, day not in 1..31) or by the caught `ValueError` of an
invalid calendar date — makes extraction fall through to the next
pattern, and when every pattern is rejected the extraction returns
unresolved (`none`); the translated extractor is a total function, so no
exception escapes. -/
theorem filename_date_range_rejection (tm : List (Option (List MGroup)))
    (gs : List MGroup) (rest : List (Option (List MGroup)))
    (hbad : try_date_groups tm gs = none) :
    extract_from_filename tm (some gs :: rest) = extract_from_filename tm rest
    ∧ ∀ ms : List (Option (List MGroup)),
        (∀ o ∈ ms, ∀ g, o = some g → try_date_groups tm g = none) →
        extract_from_filename tm ms = none := by
  constructor
  · simp [extract_from_filename, hbad]
  · intro ms hall
    induction ms with
    | nil => rfl
    | cons o rest' ih =>
      have ih' := ih (fun o2 ho2 g hg => hall o2 (List.mem_cons_of_mem _ ho2) g hg)
      cases o with
      | none => simpa [extract_from_filename] using ih'
      | some g =>
        have hg := hall (some g) (List.mem_cons_self _ _) g rfl
        simpa [extract_from_filename, hg] using ih'

/-- C6 witness: a match with month 13 falls through, and a list whose
only pattern match is that rejected one yields unresolved. -/
theorem filename_date_range_rejection_witness :
    extract_from_filename [] (some gsMonth13 :: []) = extract_from_filename [] []
    ∧ extract_from_filename [] [some gsMonth13] = none :=
  ⟨(filename_date_range_rejection [] gsMonth13 [] (by decide)).1,
   (filename_date_range_rejection [] gsMonth13 [] (by decide)).2 [some gsMonth13]
     (by
       intro o ho g hg
       have h1 : o = some gsMonth13 := by simpa using ho
       rw [h1] at hg
       rw [← Option.some.inj hg]
       decide)⟩

/-- C9 counterexample: the sub-second merge is guarded by Python
truthiness, so a companion field holding the integer 0 — an in-range
integer below 1000, for which the claim demands a microsecond component
of 0 · 1000 — leaves an already-parsed nonzero microsecond value
untouched. -/
theorem mergeSubsec_counterexample :
    (mergeSubsec dtMicro (some (PyVal.vInt 0))).microsecond = 123456
    ∧ (mergeSubsec dtMicro (some (PyVal.vInt 0))).microsecond ≠ 0 * 1000 := by
  exact ⟨rfl, by decide⟩

/-- C9 (amended): for a companion sub-second field holding a truthy
value with integer content `s`: when `0 ≤ s < 1000` the microsecond
component becomes `s · 1000`; when `1000 ≤ s ≤ 999999` it becomes `s`;
an out-of-range `s` (negative, or beyond the microsecond range) and a
non-integer value leave the parsed timestamp unchanged — as does a falsy
value (integer 0, empty string), which skips the merge entirely. -/
theorem mergeSubsec_amended (dt : CDate) (v : PyVal) :
    mergeSubsec dt none = dt
    ∧ (truthyVal v = false → mergeSubsec dt (some v) = dt)
    ∧ (truthyVal v = true → pyIntOfVal v = none → mergeSubsec dt (some v) = dt)
    ∧ (∀ s : Int, truthyVal v = true → pyIntOfVal v = some s →
        ((0 ≤ s ∧ s < 1000 →
            (mergeSubsec dt (some v)).microsecond = (s * 1000).toNat)
         ∧ (1000 ≤ s ∧ s ≤ 999999 →
            (mergeSubsec dt (some v)).microsecond = s.toNat)
         ∧ (s < 0 ∨ 999999 < s → mergeSubsec dt (some v) = dt))) := by
  refine ⟨rfl, ?_, ?_, ?_⟩
  · intro htr
    simp [mergeSubsec, htr]
  · intro htr hint
    simp [mergeSubsec, htr, hint]
  · intro s htr hint
    have hred : mergeSubsec dt (some v)
        = (if (0 : Int) ≤ (if s < 1000 then s * 1000 else s)
              ∧ (if s < 1000 then s * 1000 else s) ≤ 999999
           then { dt with microsecond := (if s < 1000 then s * 1000 else s).toNat }
           else dt) := by
      simp only [mergeSubsec, htr, if_true, hint]
    refine ⟨?_, ?_, ?_⟩
    · rintro ⟨h0, h1⟩
      rw [hred, if_pos h1, if_pos (And.intro (by omega) (by omega))]
    · rintro ⟨h0, h1⟩
      have hnlt : ¬ s < 1000 := by omega
      rw [hred, if_neg hnlt, if_pos (And.intro (by omega) (by omega))]
    · intro hout
      rcases hout with hneg | hbig
      · have h1 : s < 1000 := by omega
        rw [hred, if_pos h1, if_neg (by omega)]
      · have hnlt : ¬ s < 1000 := by omega
        rw [hred, if_neg hnlt, if_neg (by omega)]

/-- C9 witness: a string-valued companion field `"123"` sets the
microsecond component to 123000. -/
theorem mergeSubsec_amended_witness :
    (mergeSubsec dtMicro (some (PyVal.vStr "123"))).microsecond = ((123 : Int) * 1000).toNat :=
  ((mergeSubsec_amended dtMicro (PyVal.vStr "123")).2.2.2 123 (by decide) (by decide)).1
    (by exact ⟨by decide, by decide⟩)

/-- C7: with the route-to-unknown strategy and no resolvable date, and
no pre-existing file at the planned path, the planner places the file
under `output_root/"unknown"` preserving its relative subdirectory path
below the input root (files directly in the input root, `relParts = []`,
go straight into `unknown`), keeping its sanitized original name. -/
theorem determine_destination_unknown_route (cfg : MovCfg) (ex : DPath → Bool)
    (nowHMS uuidHex md5tok3 : String) (relParts : List String) (stem ext : String)
    (md : FMeta)
    (hs : cfg.unknown_strategy = "route_to_unknown")
    (hcd : md.creation_date = none)
    (hfree : ex ⟨cfg.output_folder ++ "unknown" :: relParts,
                 sanitize_filename stem ++ ext⟩ = false) :
    determine_destination cfg ex nowHMS uuidHex md5tok3 relParts stem ext md
      = ⟨cfg.output_folder ++ "unknown" :: relParts, sanitize_filename stem ++ ext⟩ := by
  have hne : (("route_to_unknown" : String) == "use_ctime") = false := by decide
  have hpre : preDestination cfg md5tok3 relParts stem ext md
      = ⟨cfg.output_folder ++ "unknown" :: relParts, sanitize_filename stem ++ ext⟩ := by
    unfold preDestination generate_filename
    rw [hcd, hs, hne]
    simp
  unfold determine_destination resolve_filename_conflict
  rw [hpre, hfree]
  simp

/-- C7 witness: `input/sub/a.jpg` is planned to
`output/unknown/sub/a.jpg`, and a file directly in the input root goes
straight into `output/unknown`. -/
theorem determine_destination_unknown_route_witness :
    determine_destination cfgUnknown (fun _ => false) "120000" "deadbeef" "abc"
        ["sub"] "a" ".jpg" ⟨none, none⟩
      = ⟨["output", "unknown", "sub"], "a.jpg"⟩
    ∧ determine_destination cfgUnknown (fun _ => false) "120000" "deadbeef" "abc"
        [] "a" ".jpg" ⟨none, none⟩
      = ⟨["output", "unknown"], "a.jpg"⟩ :=
  ⟨(determine_destination_unknown_route cfgUnknown (fun _ => false) "120000" "deadbeef" "abc"
      ["sub"] "a" ".jpg" ⟨none, none⟩ rfl rfl rfl).trans (by decide),
   (determine_destination_unknown_route cfgUnknown (fun _ => false) "120000" "deadbeef" "abc"
      [] "a" ".jpg" ⟨none, none⟩ rfl rfl rfl).trans (by decide)⟩

/-- C4 counterexample: with the timestamp-suffix policy and a colliding
base path, re-computing the destination at a different wall-clock second
yields a different path — destination generation is not idempotent under
retry once conflict resolution fires. -/
theorem determine_destination_retry_counterexample :
    determine_destination cfgY exOut "120000" "aaaaaaaa" "abc" [] "a" ".jpg" mdJul
      ≠ determine_destination cfgY exOut "130000" "aaaaaaaa" "abc" [] "a" ".jpg" mdJul := by
  decide

/-- C4 (amended): when the initially planned path does not already
exist, conflict resolution is the identity, so recomputation under any
wall clock and any random token yields the same conflict-free path both
times (and that path is indeed free); once a collision forces conflict
resolution, the result depends on the current time or random token. -/
theorem determine_destination_idempotent (cfg : MovCfg) (ex : DPath → Bool)
    (now1 u1 now2 u2 md5tok3 : String) (relParts : List String) (stem ext : String)
    (md : FMeta)
    (h : ex (preDestination cfg md5tok3 relParts stem ext md) = false) :
    determine_destination cfg ex now1 u1 md5tok3 relParts stem ext md
      = determine_destination cfg ex now2 u2 md5tok3 relParts stem ext md
    ∧ ex (determine_destination cfg ex now1 u1 md5tok3 relParts stem ext md) = false := by
  unfold determine_destination resolve_filename_conflict
  rw [h]
  simp [h]

/-- C4 witness: with no colliding destination, two computations at
different clocks and tokens agree. -/
theorem determine_destination_idempotent_witness :
    determine_destination cfgY (fun _ => false) "120000" "aaaaaaaa" "abc" [] "a" ".jpg" mdJul
      = determine_destination cfgY (fun _ => false) "130000" "bbbbbbbb" "abc" [] "a" ".jpg" mdJul
    ∧ (fun _ => false)
        (determine_destination cfgY (fun _ => false) "120000" "aaaaaaaa" "abc" [] "a" ".jpg" mdJul)
      = false :=
  determine_destination_idempotent cfgY (fun _ => false) "120000" "aaaaaaaa" "130000" "bbbbbbbb"
    "abc" [] "a" ".jpg" mdJul rfl

/-- C2 counterexample: in dry-run mode `copy_file` creates the
destination's parent directory (the `mkdir` precedes the dry-run branch)
and returns success even though the source file does not exist — so it
neither "verifies the source still exists" nor "performs no filesystem
mutation whatsoever". -/
theorem copy_file_dry_run_counterexample :
    copy_file true (fun _ => true) [] ⟨[], []⟩ "in/a.jpg" "out/2024/07" "out/2024/07/x.jpg"
      = (true, ["in/a.jpg"], ⟨[], ["out/2024/07"]⟩)
    ∧ ((⟨[], []⟩ : FileSys).files.contains "in/a.jpg" = false)
    ∧ ((⟨[], ["out/2024/07"]⟩ : FileSys) ≠ (⟨[], []⟩ : FileSys)) := by
  refine ⟨rfl, rfl, ?_⟩
  decide

/-- C2 (amended): in dry-run mode `copy_file` marks the source as
processed and returns success without checking that the source exists;
its only filesystem mutation is creating the destination's parent
directory (no files are created).  Consequently a dry run over N valid
files — pairwise distinct paths, none already processed, destinations
not pre-existing, starting from an empty store — yields a summary with
`copied == N` while the set of files on disk is unchanged (only
directories are created under the output root). -/
theorem copy_file_dry_run_amended (ioOk : Nat → Bool) (copied : List String)
    (sys : FileSys) (src dp dst : String)
    (h1 : copied.contains src = false) :
    copy_file true ioOk copied sys src dp dst = (true, src :: copied, mkdirParents sys dp)
    ∧ (mkdirParents sys dp).files = sys.files
    ∧ ∀ (alg : String) (st : PipeState) (fl : List PFile),
        st.store = [] →
        (∀ f ∈ fl, st.copiedFiles.contains f.path = false) →
        (∀ f ∈ fl, st.sys.files.contains f.dest = false) →
        fl.Pairwise (fun f g => f.path ≠ g.path) →
        (processFiles true ioOk alg st fl).summary.copied = st.summary.copied + fl.length
        ∧ (processFiles true ioOk alg st fl).sys.files = st.sys.files := by
  refine ⟨?_, mkdirParents_files sys dp, ?_⟩
  · unfold copy_file
    rw [h1]
    simp
  · intro alg st fl hstore hcp hdest hpw
    refine processFiles_dry ioOk alg fl st ?_ hcp hdest hpw
    rw [hstore]
    intro kp hkp
    simp at hkp

/-- C2 witness: the amended statement evaluated on a dry run over the
two concrete files of the fixture. -/
theorem copy_file_dry_run_amended_witness :
    copy_file true (fun _ => true) [] ⟨["in/a.jpg", "in/b.jpg"], []⟩
        "in/a.jpg" "out/2024/07" "out/2024/07/x.jpg"
      = (true, ["in/a.jpg"], mkdirParents ⟨["in/a.jpg", "in/b.jpg"], []⟩ "out/2024/07")
    ∧ ((processFiles true (fun _ => true) "sha256" stTwoSources [fileA, fileB]).summary.copied
        = stTwoSources.summary.copied + [fileA, fileB].length
      ∧ (processFiles true (fun _ => true) "sha256" stTwoSources [fileA, fileB]).sys.files
        = stTwoSources.sys.files) :=
  ⟨(copy_file_dry_run_amended (fun _ => true) [] ⟨["in/a.jpg", "in/b.jpg"], []⟩
      "in/a.jpg" "out/2024/07" "out/2024/07/x.jpg" rfl).1,
   (copy_file_dry_run_amended (fun _ => true) [] ⟨["in/a.jpg", "in/b.jpg"], []⟩
      "in/a.jpg" "out/2024/07" "out/2024/07/x.jpg" rfl).2.2
     "sha256" stTwoSources [fileA, fileB] rfl
     (by
       intro f hf
       rcases List.mem_cons.mp hf with h | h
       · rw [h]; rfl
       · have h2 : f = fileB := by simpa using h
         rw [h2]; rfl)
     (by
       intro f hf
       rcases List.mem_cons.mp hf with h | h
       · rw [h]; decide
       · have h2 : f = fileB := by simpa using h
         rw [h2]; decide)
     (by
       refine List.Pairwise.cons ?_ (List.pairwise_singleton _ _)
       intro g hg
       have h2 : g = fileB := by simpa using hg
       rw [h2]
       decide)⟩

/-- C8: once a file has been successfully copied (real mode) and its
fingerprint recorded, any later file with the same content hash is
classified as a duplicate and is not copied — the state is unchanged
except for the duplicates counter; and the same holds in a later run
whose store is the persisted store re-loaded and pruned, as long as the
first file's copy still exists on disk. -/
theorem duplicate_detected_and_skipped (ioOk : Nat → Bool) (alg : String) (st : PipeState)
    (A B : PFile) (d : String)
    (hA : A.hash = some d) (hB : B.hash = some d) (hd : d ≠ "") (hdne : A.dest ≠ "")
    (hlook : lookupFP st.store d = none)
    (hsrc : st.sys.files.contains A.path = true)
    (hnc : st.copiedFiles.contains A.path = false)
    (hio : ioOk 0 = true) :
    (process_one_file false ioOk alg st A).summary.copied = st.summary.copied + 1
    ∧ process_one_file false ioOk alg (process_one_file false ioOk alg st A) B
        = { process_one_file false ioOk alg st A with
            summary := { (process_one_file false ioOk alg st A).summary with
              duplicates := (process_one_file false ioOk alg st A).summary.duplicates + 1 } }
    ∧ ∀ st3 : PipeState,
        st3.store = cleanup_stale_fingerprints (exSys st3.sys)
            (process_one_file false ioOk alg st A).store →
        st3.sys.files.contains A.dest = true →
        process_one_file false ioOk alg st3 B
          = { st3 with summary := { st3.summary with
              duplicates := st3.summary.duplicates + 1 } } := by
  have hdupA : is_duplicate (exSys st.sys) st.store A.hash = (false, st.store) := by
    rw [hA]
    simp [is_duplicate, hd, hlook]
  have hsys1 : (mkdirParents st.sys A.destParent).files = st.sys.files :=
    mkdirParents_files _ _
  have hcpy : copy_file false ioOk st.copiedFiles st.sys A.path A.destParent A.dest
      = (true, A.path :: st.copiedFiles,
         { files := A.dest :: st.sys.files, dirs := (mkdirParents st.sys A.destParent).dirs }) := by
    unfold copy_file
    rw [hnc]
    simp only [Bool.false_eq_true, if_false, Bool.true_eq_false]
    unfold copyAttemptLoop
    rw [hsys1, hsrc, hio]
    simp
  have heA : record_fingerprint
      (exSys ⟨A.dest :: st.sys.files, (mkdirParents st.sys A.destParent).dirs⟩)
      A.mtime A.size alg st.store A.hash A.dest
      = insertFP st.store d ⟨some A.dest, some A.mtime, some A.size, alg⟩ := by
    rw [hA]
    simp [record_fingerprint, hd, exSys]
  have hst1 : process_one_file false ioOk alg st A
      = { store := insertFP st.store d ⟨some A.dest, some A.mtime, some A.size, alg⟩
          copiedFiles := A.path :: st.copiedFiles
          sys := ⟨A.dest :: st.sys.files, (mkdirParents st.sys A.destParent).dirs⟩
          summary := { st.summary with copied := st.summary.copied + 1 } } := by
    unfold process_one_file
    simp only [hdupA, hcpy]
    simp [heA]
  refine ⟨by rw [hst1], ?_, ?_⟩
  · refine process_one_file_dup ioOk alg _ B d
      ⟨some A.dest, some A.mtime, some A.size, alg⟩ A.dest hB hd ?_ rfl hdne ?_
    · rw [hst1]
      exact lookupFP_insertFP_self _ _ _
    · rw [hst1]
      simp
  · intro st3 hs3 hex3
    refine process_one_file_dup ioOk alg st3 B d
      ⟨some A.dest, some A.mtime, some A.size, alg⟩ A.dest hB hd ?_ rfl hdne hex3
    rw [hs3, hst1]
    refine lookupFP_cleanup _ _ _ _ (lookupFP_insertFP_self _ _ _) ?_
    exact hex3

/-- C8 witness: the fixture pair with identical hash `d1`: the second
file is counted as a duplicate both later in the same run and in a later
run against the persisted, pruned store. -/
theorem duplicate_detected_and_skipped_witness :
    (process_one_file false (fun _ => true) "sha256" stTwoSources fileA).summary.copied
      = stTwoSources.summary.copied + 1
    ∧ process_one_file false (fun _ => true) "sha256"
        (process_one_file false (fun _ => true) "sha256" stTwoSources fileA) fileB
      = { process_one_file false (fun _ => true) "sha256" stTwoSources fileA with
          summary := { (process_one_file false (fun _ => true) "sha256" stTwoSources fileA).summary with
            duplicates := (process_one_file false (fun _ => true) "sha256"
              stTwoSources fileA).summary.duplicates + 1 } }
    ∧ process_one_file false (fun _ => true) "sha256" stSecondRun fileB
      = { stSecondRun with summary := { stSecondRun.summary with
          duplicates := stSecondRun.summary.duplicates + 1 } } :=
  ⟨(duplicate_detected_and_skipped (fun _ => true) "sha256" stTwoSources fileA fileB "d1"
      rfl rfl (by decide) (by decide) rfl rfl rfl rfl).1,
   (duplicate_detected_and_skipped (fun _ => true) "sha256" stTwoSources fileA fileB "d1"
      rfl rfl (by decide) (by decide) rfl rfl rfl rfl).2.1,
   (duplicate_detected_and_skipped (fun _ => true) "sha256" stTwoSources fileA fileB "d1"
      rfl rfl (by decide) (by decide) rfl rfl rfl rfl).2.2 stSecondRun rfl (by decide)⟩

/-- C3 counterexample: a run interrupted before any file is processed —
input folder present, fingerprint store already loaded — exits without
invoking `save_fingerprints`: the `try` block of `run_organization` has
no `finally`, so the flush only happens on the normal path. -/
theorem run_organization_flush_counterexample :
    (run_organization true (.interrupted 0) false (fun _ => true) "sha256" []
        stTwoSources []).1.saveCalled = false := rfl

/-- C3 (amended): the fingerprint store is flushed exactly on normal
completion — `save_fingerprints` is invoked iff the input folder exists
and the run is neither cancelled nor aborted by an unexpected top-level
error; on every other path the pipeline exits without saving. -/
theorem run_organization_flush_amended (inputExists : Bool) (ev : RunEvent)
    (dryRun : Bool) (ioOk : Nat → Bool) (alg : String) (loaded : Store)
    (st0 : PipeState) (files : List PFile) :
    (run_organization inputExists ev dryRun ioOk alg loaded st0 files).1.saveCalled = true
      ↔ (inputExists = true ∧ ev = RunEvent.completed) := by
  unfold run_organization
  cases inputExists with
  | false => simp
  | true => cases ev <;> simp

end PhotoOrganizer
